import Mathlib

set_option maxRecDepth 10000

/-!
Verification of the surface transform module (rubygame_transform.c).

The pixel memory is modelled as a flat byte store `Nat → Nat`; the source and
destination surfaces of a flip live at disjoint base addresses, as the two
buffers come from separate allocations in the C code.  The 1-, 2- and 4-byte
pixel moves of the C switch each transfer exactly BytesPerPixel consecutive
bytes in memory order (a single aligned load plus store), and the 3-byte case
copies bytes 0,1,2 explicitly; both are embedded as a block copy of
BytesPerPixel bytes.  Ruby VALUE words are modelled by `RValue` together with
the word encoding used by the truth tests in the C code.
-/

/-- Write one byte at address a. -/
def poke (m : Nat → Nat) (a v : Nat) : Nat → Nat :=
  fun i => if i = a then v else m i

/-- Copy n bytes from addresses soff.. to doff.. (memcpy, and also the whole
pixel move of the 1/2/4 byte cases and the explicit 3-byte copy). -/
def copyBlock (soff doff n : Nat) (m : Nat → Nat) : Nat → Nat :=
  (List.range n).foldl (fun d k => poke d (doff + k) (d (soff + k))) m

/-- The inner per-pixel loop of the horizontal-flip cases: pixel x is read
from address srcOff x (the source pointer is decremented by the pixel size
each iteration) and written forward at doff + x * bpp. -/
def pixelLoop (w bpp : Nat) (srcOff : Nat → Nat) (doff : Nat) (m : Nat → Nat) : Nat → Nat :=
  (List.range w).foldl (fun d x => copyBlock (srcOff x) (doff + x * bpp) bpp d) m

/-- The outer row loop: rows 0 .. h-1 processed in order. -/
def rowLoop (h : Nat) (step : Nat → (Nat → Nat) → (Nat → Nat)) (m : Nat → Nat) : Nat → Nat :=
  (List.range h).foldl (fun d y => step y d) m

/-- SDL_Surface, reduced to the fields the transform code reads: geometry,
format stride, and the base address of the pixel buffer in the flat store. -/
structure Surface where
  w : Nat
  h : Nat
  bpp : Nat
  pitch : Nat
  base : Nat
  deriving DecidableEq

/-- Row of the source that feeds destination row y (spec table, vertical column). -/
def flipRow (hgt : Nat) (yaxis : Bool) (y : Nat) : Nat :=
  if yaxis then hgt - 1 - y else y

/-- Byte offset inside the source row that feeds destination byte offset j
(spec table, horizontal column): with horizontal set, destination pixel x
takes source pixel w-1-x, byte for byte. -/
def flipCol (w bpp : Nat) (xaxis : Bool) (j : Nat) : Nat :=
  if xaxis then (w - 1 - j / bpp) * bpp + j % bpp else j

/-- Spec-side four-case mapping: address of the source byte that the flip
contract assigns to destination row y, row byte j. -/
def spec_flip_srcIndex (S : Surface) (xaxis yaxis : Bool) (y j : Nat) : Nat :=
  S.base + flipRow S.h yaxis y * S.pitch + flipCol S.w S.bpp xaxis j

/-- The pixel-filling phase of rbgm_transform_flip (lines 370-461): the
destination buffer lives at base db with pitch dp.  The four branches mirror
the C if/else on the two axis flags; inside the horizontal branches the C
switch on BytesPerPixel has cases 1, 2, 4, 3, each moving one pixel of that
many bytes per iteration (a value outside the switch writes nothing). -/
def flipFlat (S : Surface) (db dp : Nat) (xaxis yaxis : Bool) (m : Nat → Nat) : Nat → Nat :=
  if xaxis = false then
    if yaxis = false then
      rowLoop S.h
        (fun y d => copyBlock (S.base + y * S.pitch) (db + y * dp) (S.w * S.bpp) d) m
    else
      rowLoop S.h
        (fun y d => copyBlock (S.base + (S.h - 1 - y) * S.pitch) (db + y * dp) (S.w * S.bpp) d) m
  else
    if yaxis = true then
      if S.bpp = 1 ∨ S.bpp = 2 ∨ S.bpp = 4 ∨ S.bpp = 3 then
        rowLoop S.h
          (fun y d => pixelLoop S.w S.bpp
            (fun x => S.base + (S.h - 1 - y) * S.pitch + (S.w - 1 - x) * S.bpp)
            (db + y * dp) d) m
      else m
    else
      if S.bpp = 1 ∨ S.bpp = 2 ∨ S.bpp = 4 ∨ S.bpp = 3 then
        rowLoop S.h
          (fun y d => pixelLoop S.w S.bpp
            (fun x => S.base + y * S.pitch + (S.w - 1 - x) * S.bpp)
            (db + y * dp) d) m
      else m

/-- Ruby VALUE at the binding boundary.  vint is a Fixnum (immediate), vfloat
a Float object, varray an Array object, vstring any non-numeric, non-array
heap object such as a String. -/
inductive RValue where
  | vfalse : RValue
  | vtrue : RValue
  | vnil : RValue
  | vint : Int → RValue
  | vfloat : Rat → RValue
  | varray : List RValue → RValue
  | vstring : RValue

/-- The machine word of a VALUE as the C code sees it: Qfalse = 0, Qtrue = 2,
Qnil = 4, a Fixnum n is the odd word 2n+1 (two's complement, 64-bit), and a
heap object is a pointer, which is never 0; such pointers are represented by
a fixed nonzero aligned word since only their nonzero-ness is ever observed. -/
def rvalueWord : RValue → Nat
  | .vfalse => 0
  | .vtrue => 2
  | .vnil => 4
  | .vint n => ((2 * n + 1) % (2 ^ 64)).toNat
  | .vfloat _ => 8
  | .varray _ => 8
  | .vstring => 8

/-- The truth test the C transform code applies to a raw VALUE stored in an
int variable: zero (that is, Qfalse) is false, every other word is true. -/
def nonzeroWord (v : RValue) : Bool :=
  rvalueWord v != 0

/-- TYPE(v) == T_ARRAY. -/
def T_ARRAY_P : RValue → Bool
  | .varray _ => true
  | _ => false

/-- FIXNUM_P(v). -/
def FIXNUM_P : RValue → Bool
  | .vint _ => true
  | _ => false

/-- TYPE(v) == T_FLOAT. -/
def T_FLOAT_P : RValue → Bool
  | .vfloat _ => true
  | _ => false

/-- rb_ary_entry(v, i); on the paths exercised here v is always an Array with
the index in range (Ruby raises a TypeError otherwise). -/
def rb_ary_entry (v : RValue) (i : Nat) : RValue :=
  match v with
  | .varray xs => xs.getD i .vnil
  | _ => .vnil

/-- NUM2DBL; non-numeric arguments raise a TypeError in Ruby and are not
exercised on any path settled here, so they are mapped to 0. -/
def NUM2DBL : RValue → Rat
  | .vint n => (n : Rat)
  | .vfloat q => q
  | _ => 0

/-- NUM2INT; the same caveat as NUM2DBL applies to non-numeric arguments,
and all integer inputs used here are exact. -/
def NUM2INT : RValue → Int
  | .vint n => n
  | .vfloat q => q.floor
  | _ => 0

/-- The raise sites of the module, one constructor per distinct failure:
rb_eArgError for arity, rb_eArgError for a zoom argument that is neither
Array nor Numeric, eSDLError for the allocator depth check, eSDLError with
the SDL_gfx version triple for a missing capability, and eSDLError when the
backend returns no surface. -/
inductive TErr where
  | wrongNumArgs : Nat → Nat → TErr
  | wrongZoomType : TErr
  | unsupportedDepth : TErr
  | capabilityMissing : Nat × Nat × Nat → TErr
  | backendFailure : TErr
  deriving DecidableEq

/-- newsurf_fromsurf (lines 303-322): reject BytesPerPixel outside 1..4,
otherwise allocate a fresh surface of the requested size with the same
format; the allocator chooses the destination base address and pitch. -/
def newsurf_fromsurf (surf : Surface) (width height db dp : Nat) : Except TErr Surface :=
  if surf.bpp = 0 ∨ 4 < surf.bpp then .error .unsupportedDepth
  else .ok { w := width, h := height, bpp := surf.bpp, pitch := dp, base := db }

/-- rbgm_transform_flip (lines 339-470).  The axis flags are the raw VALUE
words of argv[0] and argv[1] stored in C ints and tested against zero; the
allocator supplies the destination placement db, dp.  On success the new
surface and the updated memory are returned; the source bytes are only read. -/
def rbgm_transform_flip (surf : Surface) (m : Nat → Nat) (db dp : Nat)
    (args : List RValue) : Except TErr (Surface × (Nat → Nat)) :=
  if args.length < 2 then .error (.wrongNumArgs args.length 2)
  else
    let xaxis := nonzeroWord (args.getD 0 .vnil)
    let yaxis := nonzeroWord (args.getD 1 .vnil)
    match newsurf_fromsurf surf surf.w surf.h db dp with
    | .error e => .error e
    | .ok newsurf => .ok (newsurf, flipFlat surf newsurf.base newsurf.pitch xaxis yaxis m)

/-- The SDL_gfx backend as the dispatch code sees it: the compile-time
capability HAVE_ROTOZOOMXY (SDL_gfx 2.0.13 or later, which also brings
negative zoom factors), the version triple used in error messages, and the
resampling entry points, which may fail by returning no surface. -/
structure GfxBackend where
  hasRotozoomXY : Bool
  version : Nat × Nat × Nat
  rotozoomXY : Surface → Rat → Rat → Rat → Bool → Option Surface
  rotozoom : Surface → Rat → Rat → Bool → Option Surface
  zoom : Surface → Rat → Rat → Bool → Option Surface
  rotozoomSizeXY : Int → Int → Rat → Rat → Rat → Int × Int
  rotozoomSize : Int → Int → Rat → Rat → Int × Int
  zoomSize : Int → Int → Rat → Rat → Int × Int

/-- rbgm_transform_rotozoom (lines 64-123): argv = [angle, zoom, smooth];
smooth is the raw VALUE word of argv[2] when present.  An Array zoom needs
the XY capability, a negative scalar zoom needs it too, and any other zoom
type is an argument error. -/
def rbgm_transform_rotozoom (B : GfxBackend) (self : Surface) (args : List RValue) :
    Except TErr Surface :=
  if args.length < 3 then .error (.wrongNumArgs args.length 3)
  else
    let angle := NUM2DBL (args.getD 0 .vnil)
    let smooth := if 2 < args.length then nonzeroWord (args.getD 2 .vnil) else false
    if T_ARRAY_P (args.getD 1 .vnil) then
      if B.hasRotozoomXY then
        let zoomx := NUM2DBL (rb_ary_entry (args.getD 1 .vnil) 0)
        let zoomy := NUM2DBL (rb_ary_entry (args.getD 1 .vnil) 1)
        match B.rotozoomXY self angle zoomx zoomy smooth with
        | none => .error .backendFailure
        | some dst => .ok dst
      else .error (.capabilityMissing B.version)
    else if FIXNUM_P (args.getD 1 .vnil) || T_FLOAT_P (args.getD 1 .vnil) then
      let zoomx := NUM2DBL (args.getD 1 .vnil)
      if B.hasRotozoomXY = false ∧ zoomx < 0 then .error (.capabilityMissing B.version)
      else
        match B.rotozoom self angle zoomx smooth with
        | none => .error .backendFailure
        | some dst => .ok dst
    else .error .wrongZoomType

/-- rbgm_transform_rzsize (lines 146-193): argv = [size, angle, zoom].  As in
the C source, BOTH w and h are read from element 0 of the size pair, the
Array test is on argv[2] but the scalar test and the scalar zoom value use
argv[1] (the angle), and the XY zoom components are read from argv[1]. -/
def rbgm_transform_rzsize (B : GfxBackend) (args : List RValue) :
    Except TErr (Option (Int × Int)) :=
  if args.length < 3 then .error (.wrongNumArgs args.length 3)
  else
    let w := NUM2INT (rb_ary_entry (args.getD 0 .vnil) 0)
    let h := NUM2INT (rb_ary_entry (args.getD 0 .vnil) 0)
    let angle := NUM2DBL (args.getD 1 .vnil)
    if T_ARRAY_P (args.getD 2 .vnil) then
      if B.hasRotozoomXY then
        let zoomx := NUM2DBL (rb_ary_entry (args.getD 1 .vnil) 0)
        let zoomy := NUM2DBL (rb_ary_entry (args.getD 1 .vnil) 1)
        .ok (some (B.rotozoomSizeXY w h angle zoomx zoomy))
      else .ok none
    else if FIXNUM_P (args.getD 1 .vnil) || T_FLOAT_P (args.getD 1 .vnil) then
      let zoomx := NUM2DBL (args.getD 1 .vnil)
      if B.hasRotozoomXY = false ∧ zoomx < 0 then .ok none
      else .ok (some (B.rotozoomSize w h angle zoomx))
    else .error .wrongZoomType

/-- rbgm_transform_zoom (lines 226-256): argv = [zoom, smooth]; the arity
check rejects argc < 2 although the message and the doc say one argument
suffices. -/
def rbgm_transform_zoom (B : GfxBackend) (self : Surface) (args : List RValue) :
    Except TErr Surface :=
  if args.length < 2 then .error (.wrongNumArgs args.length 1)
  else
    let z :=
      if T_ARRAY_P (args.getD 0 .vnil) then
        some (NUM2DBL (rb_ary_entry (args.getD 0 .vnil) 0),
              NUM2DBL (rb_ary_entry (args.getD 0 .vnil) 1))
      else if FIXNUM_P (args.getD 0 .vnil) || T_FLOAT_P (args.getD 0 .vnil) then
        some (NUM2DBL (args.getD 0 .vnil), NUM2DBL (args.getD 0 .vnil))
      else none
    match z with
    | none => .error .wrongZoomType
    | some (zoomx, zoomy) =>
      let smooth := if 1 < args.length then nonzeroWord (args.getD 1 .vnil) else false
      match B.zoom self zoomx zoomy smooth with
      | none => .error .backendFailure
      | some dst => .ok dst

/-- rbgm_transform_zoomsize (lines 270-295): argv = [size, zoom]; the arity
check demands three arguments, and both w and h are read from element 0 of
the size pair, as in the C source. -/
def rbgm_transform_zoomsize (B : GfxBackend) (args : List RValue) :
    Except TErr (Int × Int) :=
  if args.length < 3 then .error (.wrongNumArgs args.length 3)
  else
    let w := NUM2INT (rb_ary_entry (args.getD 0 .vnil) 0)
    let h := NUM2INT (rb_ary_entry (args.getD 0 .vnil) 0)
    if T_ARRAY_P (args.getD 1 .vnil) then
      let zoomx := NUM2DBL (rb_ary_entry (args.getD 1 .vnil) 0)
      let zoomy := NUM2DBL (rb_ary_entry (args.getD 1 .vnil) 1)
      .ok (B.zoomSize w h zoomx zoomy)
    else if FIXNUM_P (args.getD 1 .vnil) || T_FLOAT_P (args.getD 1 .vnil) then
      let zoomx := NUM2DBL (args.getD 1 .vnil)
      .ok (B.zoomSize w h zoomx zoomx)
    else .error .wrongZoomType

/-- Little-endian byte expansion of a list of 32-bit pixel words. -/
def wordsLE : List Nat → List Nat
  | [] => []
  | v :: t => v % 256 :: v / 256 % 256 :: v / 256 ^ 2 % 256 :: v / 256 ^ 3 % 256 :: wordsLE t

/-- Read back the full destination buffer of a successful flip as a byte list. -/
def flipReadout (S : Surface) (m : Nat → Nat) (db dp : Nat) (args : List RValue) : List Nat :=
  match rbgm_transform_flip S m db dp args with
  | .ok (T, mem) => (List.range (T.h * T.pitch)).map (fun i => mem (T.base + i))
  | .error _ => []

/-- The 4 x 2, 4 bytes-per-pixel, pitch 16 source of scenarios S1-S3. -/
def scenarioSurf : Surface := { w := 4, h := 2, bpp := 4, pitch := 16, base := 0 }

/-- Its pixel memory: row-major 32-bit words 0x01 .. 0x08. -/
def scenarioMem : Nat → Nat :=
  fun i => (wordsLE [1, 2, 3, 4, 5, 6, 7, 8]).getD i 0

/-- A backend that accepts every request and returns the source unchanged,
with sizes to match (SDL_gfx 2.0.13 behaviour at angle 0, zoom 1). -/
def acceptBackend : GfxBackend where
  hasRotozoomXY := true
  version := (2, 0, 13)
  rotozoomXY := fun s _ _ _ _ => some s
  rotozoom := fun s _ _ _ => some s
  zoom := fun s _ _ _ => some s
  rotozoomSizeXY := fun w h _ _ _ => (w, h)
  rotozoomSize := fun w h _ _ => (w, h)
  zoomSize := fun w h _ _ => (w, h)

/-- A backend built against SDL_gfx earlier than 2.0.13: no XY zoom and no
negative zoom. -/
def noXYBackend : GfxBackend where
  hasRotozoomXY := false
  version := (2, 0, 11)
  rotozoomXY := fun s _ _ _ _ => some s
  rotozoom := fun s _ _ _ => some s
  zoom := fun s _ _ _ => some s
  rotozoomSizeXY := fun w h _ _ _ => (w, h)
  rotozoomSize := fun w h _ _ => (w, h)
  zoomSize := fun w h _ _ => (w, h)

/-- A surface with an unsupported depth (scenario S5). -/
def surf8 : Surface := { w := 4, h := 4, bpp := 8, pitch := 32, base := 0 }

/-- A 4 x 7 source surface for the size-predictor comparison. -/
def surf47 : Surface := { w := 4, h := 7, bpp := 4, pitch := 16, base := 0 }

/-- A generic small surface for the dispatch evaluations. -/
def surfS : Surface := { w := 4, h := 4, bpp := 4, pitch := 16, base := 0 }

/-! ## Memory lemmas -/

theorem poke_at (m : Nat → Nat) (a v : Nat) : poke m a v a = v := by
  simp [poke]

theorem poke_away (m : Nat → Nat) (a v i : Nat) (h : i ≠ a) : poke m a v i = m i := by
  simp [poke, h]

theorem copyBlock_succ (soff doff n : Nat) (m : Nat → Nat) :
    copyBlock soff doff (n + 1) m =
      poke (copyBlock soff doff n m) (doff + n) (copyBlock soff doff n m (soff + n)) := by
  simp [copyBlock, List.range_succ]

theorem copyBlock_frame (soff doff n : Nat) (m : Nat → Nat) (i : Nat)
    (hi : ∀ k, k < n → i ≠ doff + k) :
    copyBlock soff doff n m i = m i := by
  induction n with
  | zero => rfl
  | succ n ih =>
    rw [copyBlock_succ, poke_away _ _ _ _ (hi n (Nat.lt_succ_self n))]
    exact ih (fun k hk => hi k (Nat.lt_succ_of_lt hk))

theorem copyBlock_get (soff doff n : Nat) (m : Nat → Nat) (j : Nat) (hj : j < n)
    (hdisj : ∀ a b, a < n → b < n → soff + a ≠ doff + b) :
    copyBlock soff doff n m (doff + j) = m (soff + j) := by
  induction n with
  | zero => omega
  | succ n ih =>
    rw [copyBlock_succ]
    by_cases hjn : j = n
    · subst hjn
      rw [poke_at]
      exact copyBlock_frame _ _ _ _ _
        (fun k hk => hdisj j k (Nat.lt_succ_self j) (Nat.lt_succ_of_lt hk))
    · rw [poke_away _ _ _ _ (by omega)]
      exact ih (by omega) (fun a b ha hb => hdisj a b (by omega) (by omega))

theorem pixelLoop_succ (w bpp : Nat) (srcOff : Nat → Nat) (doff : Nat) (m : Nat → Nat) :
    pixelLoop (w + 1) bpp srcOff doff m =
      copyBlock (srcOff w) (doff + w * bpp) bpp (pixelLoop w bpp srcOff doff m) := by
  simp [pixelLoop, List.range_succ]

theorem pixelLoop_frame (w bpp : Nat) (srcOff : Nat → Nat) (doff : Nat) (m : Nat → Nat) (i : Nat)
    (hi : ∀ j, j < w * bpp → i ≠ doff + j) :
    pixelLoop w bpp srcOff doff m i = m i := by
  induction w with
  | zero => rfl
  | succ w ih =>
    rw [pixelLoop_succ, copyBlock_frame]
    · exact ih (fun j hj => hi j (by rw [Nat.succ_mul]; omega))
    · intro k hk
      have h1 : w * bpp + k < (w + 1) * bpp := by rw [Nat.succ_mul]; omega
      have h2 := hi (w * bpp + k) h1
      omega

theorem pixelLoop_get (w bpp : Nat) (srcOff : Nat → Nat) (doff : Nat) (m : Nat → Nat)
    (x k : Nat) (hx : x < w) (hk : k < bpp)
    (hdisj : ∀ y a j, y < w → a < bpp → j < w * bpp → srcOff y + a ≠ doff + j) :
    pixelLoop w bpp srcOff doff m (doff + (x * bpp + k)) = m (srcOff x + k) := by
  induction w with
  | zero => omega
  | succ w ih =>
    rw [pixelLoop_succ]
    by_cases hxw : x = w
    · subst hxw
      have h1 : doff + (x * bpp + k) = doff + x * bpp + k := by omega
      have hd : ∀ a b, a < bpp → b < bpp → srcOff x + a ≠ doff + x * bpp + b := by
        intro a b ha hb
        have h2 : x * bpp + b < (x + 1) * bpp := by rw [Nat.succ_mul]; omega
        have h3 := hdisj x a (x * bpp + b) (Nat.lt_succ_self x) ha h2
        omega
      rw [h1, copyBlock_get _ _ _ _ _ hk hd]
      exact pixelLoop_frame _ _ _ _ _ _
        (fun j hj => hdisj x k j (Nat.lt_succ_self x) hk (by rw [Nat.succ_mul]; omega))
    · have hxlt : x < w := by omega
      rw [copyBlock_frame]
      · exact ih hxlt
          (fun y a j hy ha hj => hdisj y a j (by omega) ha (by rw [Nat.succ_mul]; omega))
      · intro a ha
        have hxb : x * bpp + k < w * bpp := by
          have h1 : x * bpp + k < (x + 1) * bpp := by rw [Nat.succ_mul]; omega
          exact Nat.lt_of_lt_of_le h1 (Nat.mul_le_mul_right bpp hxlt)
        omega

theorem rowLoop_succ (h : Nat) (step : Nat → (Nat → Nat) → (Nat → Nat)) (m : Nat → Nat) :
    rowLoop (h + 1) step m = step h (rowLoop h step m) := by
  simp [rowLoop, List.range_succ]

theorem rowLoop_pres (hh : Nat) (step : Nat → (Nat → Nat) → (Nat → Nat)) (m : Nat → Nat)
    (db dp n : Nat) (i : Nat)
    (hframe : ∀ y d j, (∀ k, k < n → j ≠ db + y * dp + k) → step y d j = d j)
    (hi : ∀ y k, y < hh → k < n → i ≠ db + y * dp + k) :
    rowLoop hh step m i = m i := by
  induction hh with
  | zero => rfl
  | succ hh ih =>
    rw [rowLoop_succ, hframe hh _ i (fun k hk => hi hh k (Nat.lt_succ_self hh) hk)]
    exact ih (fun y k hy hk => hi y k (Nat.lt_succ_of_lt hy) hk)

theorem rowLoop_get (hh : Nat) (step : Nat → (Nat → Nat) → (Nat → Nat)) (m : Nat → Nat)
    (db dp n : Nat) (R : Nat → Prop) (val : Nat → Nat → Nat)
    (hframe : ∀ y d j, (∀ k, k < n → j ≠ db + y * dp + k) → step y d j = d j)
    (hread : ∀ y d, y < hh → (∀ i, R i → d i = m i) →
      ∀ j, j < n → step y d (db + y * dp + j) = val y j)
    (hdisjR : ∀ i, R i → ∀ y k, y < hh → k < n → i ≠ db + y * dp + k)
    (hn : n ≤ dp)
    (y j : Nat) (hy : y < hh) (hj : j < n) :
    rowLoop hh step m (db + y * dp + j) = val y j := by
  induction hh with
  | zero => omega
  | succ hh ih =>
    rw [rowLoop_succ]
    by_cases hyh : y = hh
    · subst hyh
      refine hread y _ (Nat.lt_succ_self y) ?_ j hj
      intro i hRi
      exact rowLoop_pres y step m db dp n i hframe
        (fun y0 k hy0 hk => hdisjR i hRi y0 k (Nat.lt_succ_of_lt hy0) hk)
    · have hylt : y < hh := by omega
      have hne : ∀ k, k < n → db + y * dp + j ≠ db + hh * dp + k := by
        intro k hk
        have h1 : y * dp + j < (y + 1) * dp := by rw [Nat.succ_mul]; omega
        have h2 : (y + 1) * dp ≤ hh * dp := Nat.mul_le_mul_right dp hylt
        omega
      rw [hframe hh _ _ hne]
      exact ih (fun y0 d hy0 hinv j0 hj0 => hread y0 d (Nat.lt_succ_of_lt hy0) hinv j0 hj0)
        (fun i hRi y0 k hy0 hk => hdisjR i hRi y0 k (Nat.lt_succ_of_lt hy0) hk) hylt

theorem row_bound (y a n p hgt : Nat) (hy : y < hgt) (ha : a < n) (hn : n ≤ p) :
    y * p + a < hgt * p := by
  have h1 : y * p + a < (y + 1) * p := by rw [Nat.succ_mul]; omega
  exact Nat.lt_of_lt_of_le h1 (Nat.mul_le_mul_right p hy)

/-! ## Flip kernel characterisation -/

theorem flipFlat_ff (S : Surface) (db dp : Nat) (m : Nat → Nat) :
    flipFlat S db dp false false m =
      rowLoop S.h
        (fun y d => copyBlock (S.base + y * S.pitch) (db + y * dp) (S.w * S.bpp) d) m := rfl

theorem flipFlat_ft (S : Surface) (db dp : Nat) (m : Nat → Nat) :
    flipFlat S db dp false true m =
      rowLoop S.h
        (fun y d => copyBlock (S.base + (S.h - 1 - y) * S.pitch) (db + y * dp) (S.w * S.bpp) d)
        m := rfl

theorem flipFlat_tf (S : Surface) (db dp : Nat) (m : Nat → Nat) :
    flipFlat S db dp true false m =
      if S.bpp = 1 ∨ S.bpp = 2 ∨ S.bpp = 4 ∨ S.bpp = 3 then
        rowLoop S.h
          (fun y d => pixelLoop S.w S.bpp
            (fun x => S.base + y * S.pitch + (S.w - 1 - x) * S.bpp) (db + y * dp) d) m
      else m := rfl

theorem flipFlat_tt (S : Surface) (db dp : Nat) (m : Nat → Nat) :
    flipFlat S db dp true true m =
      if S.bpp = 1 ∨ S.bpp = 2 ∨ S.bpp = 4 ∨ S.bpp = 3 then
        rowLoop S.h
          (fun y d => pixelLoop S.w S.bpp
            (fun x => S.base + (S.h - 1 - y) * S.pitch + (S.w - 1 - x) * S.bpp)
            (db + y * dp) d) m
      else m := rfl

theorem flipFlat_frame (S : Surface) (db dp : Nat) (xaxis yaxis : Bool) (m : Nat → Nat)
    (i : Nat) (hi : ∀ y k, y < S.h → k < S.w * S.bpp → i ≠ db + y * dp + k) :
    flipFlat S db dp xaxis yaxis m i = m i := by
  cases xaxis
  · cases yaxis
    · rw [flipFlat_ff]
      exact rowLoop_pres S.h _ m db dp (S.w * S.bpp) i
        (fun y d j hj => copyBlock_frame _ _ _ _ _ hj) hi
    · rw [flipFlat_ft]
      exact rowLoop_pres S.h _ m db dp (S.w * S.bpp) i
        (fun y d j hj => copyBlock_frame _ _ _ _ _ hj) hi
  · cases yaxis
    · rw [flipFlat_tf]
      by_cases hbpp : S.bpp = 1 ∨ S.bpp = 2 ∨ S.bpp = 4 ∨ S.bpp = 3
      · rw [if_pos hbpp]
        exact rowLoop_pres S.h _ m db dp (S.w * S.bpp) i
          (fun y d j hj => pixelLoop_frame _ _ _ _ _ _ hj) hi
      · rw [if_neg hbpp]
    · rw [flipFlat_tt]
      by_cases hbpp : S.bpp = 1 ∨ S.bpp = 2 ∨ S.bpp = 4 ∨ S.bpp = 3
      · rw [if_pos hbpp]
        exact rowLoop_pres S.h _ m db dp (S.w * S.bpp) i
          (fun y d j hj => pixelLoop_frame _ _ _ _ _ _ hj) hi
      · rw [if_neg hbpp]

theorem flip_rows_fwd_get (S : Surface) (db dp : Nat) (m : Nat → Nat) (rowOf : Nat → Nat)
    (hrow : ∀ y, y < S.h → rowOf y < S.h)
    (hpitch : S.w * S.bpp ≤ S.pitch) (hdp : S.w * S.bpp ≤ dp)
    (hsep : S.base + S.h * S.pitch ≤ db ∨ db + S.h * dp ≤ S.base)
    (y j : Nat) (hy : y < S.h) (hj : j < S.w * S.bpp) :
    rowLoop S.h
      (fun y0 d => copyBlock (S.base + rowOf y0 * S.pitch) (db + y0 * dp) (S.w * S.bpp) d) m
      (db + y * dp + j)
      = m (S.base + rowOf y * S.pitch + j) := by
  refine rowLoop_get S.h _ m db dp (S.w * S.bpp)
    (fun i => S.base ≤ i ∧ i < S.base + S.h * S.pitch)
    (fun y0 j0 => m (S.base + rowOf y0 * S.pitch + j0))
    ?hframe ?hread ?hdisjR hdp y j hy hj
  case hframe => exact fun y0 d j0 hj0 => copyBlock_frame _ _ _ _ _ hj0
  case hread =>
    intro y0 d hy0 hinv j0 hj0
    have hsrc : ∀ a, a < S.w * S.bpp → rowOf y0 * S.pitch + a < S.h * S.pitch :=
      fun a ha => row_bound _ a (S.w * S.bpp) S.pitch S.h (hrow y0 hy0) ha hpitch
    have hdisj : ∀ a b, a < S.w * S.bpp → b < S.w * S.bpp →
        S.base + rowOf y0 * S.pitch + a ≠ db + y0 * dp + b := by
      intro a b ha hb
      have h1 := hsrc a ha
      have h2 : y0 * dp + b < S.h * dp := row_bound y0 b (S.w * S.bpp) dp S.h hy0 hb hdp
      rcases hsep with h | h <;> omega
    rw [copyBlock_get _ _ _ _ _ hj0 hdisj]
    exact hinv _ ⟨by omega, by have := hsrc j0 hj0; omega⟩
  case hdisjR =>
    intro i hRi y0 k hy0 hk
    have h2 : y0 * dp + k < S.h * dp := row_bound y0 k (S.w * S.bpp) dp S.h hy0 hk hdp
    obtain ⟨hi1, hi2⟩ := hRi
    rcases hsep with h | h <;> omega

theorem flip_rows_rev_get (S : Surface) (db dp : Nat) (m : Nat → Nat) (rowOf : Nat → Nat)
    (hrow : ∀ y, y < S.h → rowOf y < S.h)
    (hb0 : 0 < S.bpp)
    (hpitch : S.w * S.bpp ≤ S.pitch) (hdp : S.w * S.bpp ≤ dp)
    (hsep : S.base + S.h * S.pitch ≤ db ∨ db + S.h * dp ≤ S.base)
    (y j : Nat) (hy : y < S.h) (hj : j < S.w * S.bpp) :
    rowLoop S.h
      (fun y0 d => pixelLoop S.w S.bpp
        (fun x => S.base + rowOf y0 * S.pitch + (S.w - 1 - x) * S.bpp) (db + y0 * dp) d) m
      (db + y * dp + j)
      = m (S.base + rowOf y * S.pitch + ((S.w - 1 - j / S.bpp) * S.bpp + j % S.bpp)) := by
  refine rowLoop_get S.h _ m db dp (S.w * S.bpp)
    (fun i => S.base ≤ i ∧ i < S.base + S.h * S.pitch)
    (fun y0 j0 => m (S.base + rowOf y0 * S.pitch +
      ((S.w - 1 - j0 / S.bpp) * S.bpp + j0 % S.bpp)))
    ?hframe ?hread ?hdisjR hdp y j hy hj
  case hframe => exact fun y0 d j0 hj0 => pixelLoop_frame _ _ _ _ _ _ hj0
  case hread =>
    intro y0 d hy0 hinv j0 hj0
    have hxk : S.bpp * (j0 / S.bpp) + j0 % S.bpp = j0 := Nat.div_add_mod j0 S.bpp
    have hxw : j0 / S.bpp < S.w := (Nat.div_lt_iff_lt_mul hb0).mpr hj0
    have hkb : j0 % S.bpp < S.bpp := Nat.mod_lt j0 hb0
    have hcomm : (j0 / S.bpp) * S.bpp = S.bpp * (j0 / S.bpp) := Nat.mul_comm _ _
    have hidx : db + y0 * dp + j0 = db + y0 * dp + ((j0 / S.bpp) * S.bpp + j0 % S.bpp) := by
      omega
    rw [hidx]
    have hdisj : ∀ p a q, p < S.w → a < S.bpp → q < S.w * S.bpp →
        S.base + rowOf y0 * S.pitch + (S.w - 1 - p) * S.bpp + a ≠ db + y0 * dp + q := by
      intro p a q hp ha hq
      have hin : (S.w - 1 - p) * S.bpp + a < S.w * S.bpp :=
        row_bound (S.w - 1 - p) a S.bpp S.bpp S.w (by omega) ha (Nat.le_refl _)
      have h1 : rowOf y0 * S.pitch + ((S.w - 1 - p) * S.bpp + a) < S.h * S.pitch :=
        row_bound _ _ (S.w * S.bpp) S.pitch S.h (hrow y0 hy0) hin hpitch
      have h2 : y0 * dp + q < S.h * dp := row_bound y0 q (S.w * S.bpp) dp S.h hy0 hq hdp
      rcases hsep with h | h <;> omega
    rw [pixelLoop_get S.w S.bpp _ (db + y0 * dp) d (j0 / S.bpp) (j0 % S.bpp) hxw hkb hdisj]
    have hw0 : 0 < S.w := Nat.lt_of_le_of_lt (Nat.zero_le _) hxw
    have hsub : S.w - 1 - j0 / S.bpp < S.w :=
      Nat.lt_of_le_of_lt (Nat.sub_le _ _) (Nat.sub_lt hw0 Nat.one_pos)
    have hin : (S.w - 1 - j0 / S.bpp) * S.bpp + j0 % S.bpp < S.w * S.bpp :=
      row_bound (S.w - 1 - j0 / S.bpp) (j0 % S.bpp) S.bpp S.bpp S.w hsub hkb
        (Nat.le_refl _)
    have h1 : rowOf y0 * S.pitch + ((S.w - 1 - j0 / S.bpp) * S.bpp + j0 % S.bpp)
        < S.h * S.pitch :=
      row_bound _ _ (S.w * S.bpp) S.pitch S.h (hrow y0 hy0) hin hpitch
    have hIdx2 : S.base + rowOf y0 * S.pitch + (S.w - 1 - j0 / S.bpp) * S.bpp + j0 % S.bpp
        = S.base + rowOf y0 * S.pitch + ((S.w - 1 - j0 / S.bpp) * S.bpp + j0 % S.bpp) := by
      omega
    rw [hIdx2]
    exact hinv _ ⟨by omega, by omega⟩
  case hdisjR =>
    intro i hRi y0 k hy0 hk
    have h2 : y0 * dp + k < S.h * dp := row_bound y0 k (S.w * S.bpp) dp S.h hy0 hk hdp
    obtain ⟨hi1, hi2⟩ := hRi
    rcases hsep with h | h <;> omega

theorem flipFlat_get (S : Surface) (db dp : Nat) (xaxis yaxis : Bool) (m : Nat → Nat)
    (hbpp : S.bpp = 1 ∨ S.bpp = 2 ∨ S.bpp = 4 ∨ S.bpp = 3)
    (hpitch : S.w * S.bpp ≤ S.pitch) (hdp : S.w * S.bpp ≤ dp)
    (hsep : S.base + S.h * S.pitch ≤ db ∨ db + S.h * dp ≤ S.base)
    (y j : Nat) (hy : y < S.h) (hj : j < S.w * S.bpp) :
    flipFlat S db dp xaxis yaxis m (db + y * dp + j) =
      m (spec_flip_srcIndex S xaxis yaxis y j) := by
  have hb0 : 0 < S.bpp := by rcases hbpp with h | h | h | h <;> omega
  cases xaxis
  · cases yaxis
    · rw [flipFlat_ff]
      exact flip_rows_fwd_get S db dp m (fun y0 => y0) (fun y0 h => h)
        hpitch hdp hsep y j hy hj
    · rw [flipFlat_ft]
      exact flip_rows_fwd_get S db dp m (fun y0 => S.h - 1 - y0)
        (fun y0 h => by show S.h - 1 - y0 < S.h; omega) hpitch hdp hsep y j hy hj
  · cases yaxis
    · rw [flipFlat_tf, if_pos hbpp]
      exact flip_rows_rev_get S db dp m (fun y0 => y0) (fun y0 h => h) hb0
        hpitch hdp hsep y j hy hj
    · rw [flipFlat_tt, if_pos hbpp]
      exact flip_rows_rev_get S db dp m (fun y0 => S.h - 1 - y0)
        (fun y0 h => by show S.h - 1 - y0 < S.h; omega) hb0 hpitch hdp hsep y j hy hj

/-! ## Row and column index algebra -/

theorem flipRow_false (hgt y : Nat) : flipRow hgt false y = y := rfl

theorem flipRow_true (hgt y : Nat) : flipRow hgt true y = hgt - 1 - y := rfl

theorem flipCol_false (w bpp j : Nat) : flipCol w bpp false j = j := rfl

theorem flipCol_true (w bpp j : Nat) :
    flipCol w bpp true j = (w - 1 - j / bpp) * bpp + j % bpp := rfl

theorem flipRow_lt (hgt : Nat) (vy : Bool) (y : Nat) (hy : y < hgt) :
    flipRow hgt vy y < hgt := by
  cases vy
  · rw [flipRow_false]; exact hy
  · rw [flipRow_true]; omega

theorem flipRow_invol (hgt : Nat) (vy : Bool) (y : Nat) (hy : y < hgt) :
    flipRow hgt vy (flipRow hgt vy y) = y := by
  cases vy
  · rw [flipRow_false, flipRow_false]
  · rw [flipRow_true, flipRow_true]; omega

theorem flipCol_lt (w bpp : Nat) (hx : Bool) (j : Nat) (hb0 : 0 < bpp)
    (hj : j < w * bpp) : flipCol w bpp hx j < w * bpp := by
  cases hx
  · rw [flipCol_false]; exact hj
  · rw [flipCol_true]
    have hxw : j / bpp < w := (Nat.div_lt_iff_lt_mul hb0).mpr hj
    have hw0 : 0 < w := Nat.lt_of_le_of_lt (Nat.zero_le _) hxw
    have hkb : j % bpp < bpp := Nat.mod_lt j hb0
    exact row_bound (w - 1 - j / bpp) (j % bpp) bpp bpp w
      (Nat.lt_of_le_of_lt (Nat.sub_le _ _) (Nat.sub_lt hw0 Nat.one_pos)) hkb (Nat.le_refl _)

theorem flipCol_invol (w bpp : Nat) (hx : Bool) (j : Nat) (hb0 : 0 < bpp)
    (hj : j < w * bpp) : flipCol w bpp hx (flipCol w bpp hx j) = j := by
  cases hx
  · rw [flipCol_false, flipCol_false]
  · have hxw : j / bpp < w := (Nat.div_lt_iff_lt_mul hb0).mpr hj
    have hkb : j % bpp < bpp := Nat.mod_lt j hb0
    rw [flipCol_true, flipCol_true,
      Nat.mul_comm (w - 1 - j / bpp) bpp, Nat.mul_add_div hb0, Nat.mul_add_mod,
      Nat.div_eq_of_lt hkb, Nat.mod_eq_of_lt hkb, Nat.add_zero,
      Nat.sub_sub_self (by omega : j / bpp ≤ w - 1), Nat.mul_comm]
    exact Nat.div_add_mod j bpp

/-! ## Entry point inversion and VALUE truth table -/

theorem rbgm_transform_flip_ok (surf : Surface) (m : Nat → Nat) (db dp : Nat)
    (a0 a1 : RValue) (hguard : ¬(surf.bpp = 0 ∨ 4 < surf.bpp)) :
    rbgm_transform_flip surf m db dp [a0, a1] =
      .ok ({ w := surf.w, h := surf.h, bpp := surf.bpp, pitch := dp, base := db },
        flipFlat surf db dp (nonzeroWord a0) (nonzeroWord a1) m) := by
  simp [rbgm_transform_flip, newsurf_fromsurf, hguard]

theorem nonzeroWord_vtrue : nonzeroWord RValue.vtrue = true := rfl

theorem nonzeroWord_vfalse : nonzeroWord RValue.vfalse = false := rfl

theorem nonzeroWord_vnil : nonzeroWord RValue.vnil = true := rfl

/-! ## Claim theorems -/

/-- C1: for every source Surface of a supported depth and every combination of
the two axis flags, flip yields a surface of the same dimensions whose bytes
follow the four-case source mapping of the specification, and on the 4 x 2,
4 bytes-per-pixel scenario surface the three flips give exactly the S1, S2
and S3 pixel words. -/
theorem C1_flip_four_case_mapping :
    (∀ (S : Surface) (m : Nat → Nat) (db dp : Nat) (a0 a1 : RValue)
      (T : Surface) (mres : Nat → Nat),
      (S.bpp = 1 ∨ S.bpp = 2 ∨ S.bpp = 4 ∨ S.bpp = 3) →
      S.w * S.bpp ≤ S.pitch → S.w * S.bpp ≤ dp →
      (S.base + S.h * S.pitch ≤ db ∨ db + S.h * dp ≤ S.base) →
      rbgm_transform_flip S m db dp [a0, a1] = .ok (T, mres) →
      T.w = S.w ∧ T.h = S.h ∧
        ∀ y j, y < S.h → j < S.w * S.bpp →
          mres (db + y * dp + j) =
            m (spec_flip_srcIndex S (nonzeroWord a0) (nonzeroWord a1) y j)) ∧
    flipReadout scenarioSurf scenarioMem 32 16 [RValue.vtrue, RValue.vfalse]
      = wordsLE [4, 3, 2, 1, 8, 7, 6, 5] ∧
    flipReadout scenarioSurf scenarioMem 32 16 [RValue.vfalse, RValue.vtrue]
      = wordsLE [5, 6, 7, 8, 1, 2, 3, 4] ∧
    flipReadout scenarioSurf scenarioMem 32 16 [RValue.vtrue, RValue.vtrue]
      = wordsLE [8, 7, 6, 5, 4, 3, 2, 1] := by
  refine ⟨?_, by decide, by decide, by decide⟩
  intro S m db dp a0 a1 T mres hbpp hpitch hdp hsep hok
  have hguard : ¬(S.bpp = 0 ∨ 4 < S.bpp) := by rcases hbpp with h | h | h | h <;> omega
  rw [rbgm_transform_flip_ok S m db dp a0 a1 hguard] at hok
  injection hok with hok
  injection hok with h1 h2
  subst h1
  subst h2
  refine ⟨rfl, rfl, ?_⟩
  intro y j hy hj
  exact flipFlat_get S db dp (nonzeroWord a0) (nonzeroWord a1) m hbpp hpitch hdp hsep y j hy hj

/-- C1 witness: the general mapping applied to the scenario surface at the
destination byte of row 1, offset 0 of the horizontal flip. -/
theorem C1_flip_four_case_mapping_witness :
    (scenarioSurf.bpp = 1 ∨ scenarioSurf.bpp = 2 ∨ scenarioSurf.bpp = 4 ∨
      scenarioSurf.bpp = 3) ∧
    scenarioSurf.w * scenarioSurf.bpp ≤ 16 ∧
    flipFlat scenarioSurf 32 16 (nonzeroWord RValue.vtrue) (nonzeroWord RValue.vfalse)
        scenarioMem (32 + 1 * 16 + 0)
      = scenarioMem (spec_flip_srcIndex scenarioSurf (nonzeroWord RValue.vtrue)
          (nonzeroWord RValue.vfalse) 1 0) := by
  refine ⟨by decide, by decide, ?_⟩
  exact (C1_flip_four_case_mapping.1 scenarioSurf scenarioMem 32 16 RValue.vtrue RValue.vfalse
    { w := 4, h := 2, bpp := 4, pitch := 16, base := 32 }
    (flipFlat scenarioSurf 32 16 (nonzeroWord RValue.vtrue) (nonzeroWord RValue.vfalse)
      scenarioMem)
    (by decide) (by decide) (by decide) (Or.inl (by decide)) rfl).2.2 1 0
    (by decide) (by decide)

/-- C2: on a 3 bytes-per-pixel surface, a horizontal flip moves each pixel as
three bytes in their source-memory order (byte 0,1,2 to byte 0,1,2), stepping
the destination by +3 and the source by -3 per pixel, and on a 2 x 1 source
with bytes a0 a1 a2 b0 b1 b2 it yields b0 b1 b2 a0 a1 a2. -/
theorem C2_flip_3bpp_horizontal :
    (∀ (S : Surface) (m : Nat → Nat) (db dp : Nat) (T : Surface) (mres : Nat → Nat),
      S.bpp = 3 → S.w * 3 ≤ S.pitch → S.w * 3 ≤ dp →
      (S.base + S.h * S.pitch ≤ db ∨ db + S.h * dp ≤ S.base) →
      rbgm_transform_flip S m db dp [RValue.vtrue, RValue.vfalse] = .ok (T, mres) →
      ∀ y x k, y < S.h → x < S.w → k < 3 →
        mres (db + y * dp + (x * 3 + k)) =
          m (S.base + y * S.pitch + ((S.w - 1 - x) * 3 + k))) ∧
    (∀ a0 a1 a2 b0 b1 b2 : Nat,
      flipReadout { w := 2, h := 1, bpp := 3, pitch := 6, base := 0 }
        (fun i => [a0, a1, a2, b0, b1, b2].getD i 0) 6 6 [RValue.vtrue, RValue.vfalse]
        = [b0, b1, b2, a0, a1, a2]) := by
  constructor
  · intro S m db dp T mres hb3 hpitch hdp hsep hok y x k hy hx hk
    have hguard : ¬(S.bpp = 0 ∨ 4 < S.bpp) := by omega
    rw [rbgm_transform_flip_ok S m db dp _ _ hguard] at hok
    injection hok with hok
    injection hok with h1 h2
    subst h1
    subst h2
    have hbpp : S.bpp = 1 ∨ S.bpp = 2 ∨ S.bpp = 4 ∨ S.bpp = 3 :=
      Or.inr (Or.inr (Or.inr hb3))
    have hj : x * 3 + k < S.w * S.bpp := by
      rw [hb3]
      exact row_bound x k 3 3 S.w hx hk (Nat.le_refl _)
    have hmain := flipFlat_get S db dp (nonzeroWord RValue.vtrue)
      (nonzeroWord RValue.vfalse) m hbpp (by rw [hb3]; exact hpitch)
      (by rw [hb3]; exact hdp) hsep y (x * 3 + k) hy hj
    rw [hmain]
    simp only [spec_flip_srcIndex, nonzeroWord_vtrue, nonzeroWord_vfalse,
      flipRow_false, flipCol_true, hb3]
    have hdiv : (x * 3 + k) / 3 = x := by omega
    have hmod : (x * 3 + k) % 3 = k := by omega
    rw [hdiv, hmod]
  · intro a0 a1 a2 b0 b1 b2
    rfl

/-- C2 witness: the byte mapping applied to a concrete 2 x 1, 3 bytes-per-pixel
surface at destination pixel 0, byte 1. -/
theorem C2_flip_3bpp_horizontal_witness :
    ((2 : Nat) * 3 ≤ 6) ∧
    flipFlat { w := 2, h := 1, bpp := 3, pitch := 6, base := 0 } 6 6
        (nonzeroWord RValue.vtrue) (nonzeroWord RValue.vfalse)
        (fun i => [10, 11, 12, 20, 21, 22].getD i 0) (6 + 0 * 6 + (0 * 3 + 1))
      = (fun i => [10, 11, 12, 20, 21, 22].getD i 0) (0 + 0 * 6 + ((2 - 1 - 0) * 3 + 1)) := by
  refine ⟨by decide, ?_⟩
  exact (C2_flip_3bpp_horizontal.1 { w := 2, h := 1, bpp := 3, pitch := 6, base := 0 }
    (fun i => [10, 11, 12, 20, 21, 22].getD i 0) 6 6
    { w := 2, h := 1, bpp := 3, pitch := 6, base := 6 }
    (flipFlat { w := 2, h := 1, bpp := 3, pitch := 6, base := 0 } 6 6
      (nonzeroWord RValue.vtrue) (nonzeroWord RValue.vfalse)
      (fun i => [10, 11, 12, 20, 21, 22].getD i 0))
    rfl (by decide) (by decide) (Or.inl (by decide)) rfl) 0 0 1
    (by decide) (by decide) (by decide)

/-- C3: flip is an involution: flipping twice with the same axis arguments
reproduces every byte of the used-pixel region (the first width times
bytes-per-pixel bytes of each row) of the original surface, for any allocator
placement of the two destination buffers. -/
theorem C3_flip_involution :
    ∀ (S : Surface) (m : Nat → Nat) (db1 dp1 db2 dp2 : Nat) (a0 a1 : RValue)
      (T1 : Surface) (m1 : Nat → Nat) (T2 : Surface) (m2 : Nat → Nat),
      (S.bpp = 1 ∨ S.bpp = 2 ∨ S.bpp = 4 ∨ S.bpp = 3) →
      S.w * S.bpp ≤ S.pitch → S.w * S.bpp ≤ dp1 → S.w * S.bpp ≤ dp2 →
      (S.base + S.h * S.pitch ≤ db1 ∨ db1 + S.h * dp1 ≤ S.base) →
      (db1 + S.h * dp1 ≤ db2 ∨ db2 + S.h * dp2 ≤ db1) →
      rbgm_transform_flip S m db1 dp1 [a0, a1] = .ok (T1, m1) →
      rbgm_transform_flip T1 m1 db2 dp2 [a0, a1] = .ok (T2, m2) →
      ∀ y j, y < S.h → j < S.w * S.bpp →
        m2 (db2 + y * dp2 + j) = m (S.base + y * S.pitch + j) := by
  intro S m db1 dp1 db2 dp2 a0 a1 T1 m1 T2 m2 hbpp hpitch hdp1 hdp2 hsep1 hsep2
    hok1 hok2 y j hy hj
  have hb0 : 0 < S.bpp := by rcases hbpp with h | h | h | h <;> omega
  have hguard : ¬(S.bpp = 0 ∨ 4 < S.bpp) := by rcases hbpp with h | h | h | h <;> omega
  rw [rbgm_transform_flip_ok S m db1 dp1 a0 a1 hguard] at hok1
  injection hok1 with hok1
  injection hok1 with hT1 hm1
  subst hT1
  subst hm1
  rw [rbgm_transform_flip_ok { w := S.w, h := S.h, bpp := S.bpp, pitch := dp1, base := db1 }
    (flipFlat S db1 dp1 (nonzeroWord a0) (nonzeroWord a1) m) db2 dp2 a0 a1 hguard] at hok2
  injection hok2 with hok2
  injection hok2 with hT2 hm2
  subst hT2
  subst hm2
  have hy1 : flipRow S.h (nonzeroWord a1) y < S.h := flipRow_lt S.h _ y hy
  have hj1 : flipCol S.w S.bpp (nonzeroWord a0) j < S.w * S.bpp :=
    flipCol_lt S.w S.bpp _ j hb0 hj
  have houter := flipFlat_get
    { w := S.w, h := S.h, bpp := S.bpp, pitch := dp1, base := db1 } db2 dp2
    (nonzeroWord a0) (nonzeroWord a1)
    (flipFlat S db1 dp1 (nonzeroWord a0) (nonzeroWord a1) m)
    hbpp hdp1 hdp2 hsep2 y j hy hj
  have hspec1 : spec_flip_srcIndex
      { w := S.w, h := S.h, bpp := S.bpp, pitch := dp1, base := db1 }
      (nonzeroWord a0) (nonzeroWord a1) y j
      = db1 + flipRow S.h (nonzeroWord a1) y * dp1 +
        flipCol S.w S.bpp (nonzeroWord a0) j := rfl
  rw [hspec1] at houter
  have hinner := flipFlat_get S db1 dp1 (nonzeroWord a0) (nonzeroWord a1) m hbpp
    hpitch hdp1 hsep1 (flipRow S.h (nonzeroWord a1) y)
    (flipCol S.w S.bpp (nonzeroWord a0) j) hy1 hj1
  rw [hinner] at houter
  rw [houter]
  simp only [spec_flip_srcIndex]
  rw [flipRow_invol S.h _ y hy, flipCol_invol S.w S.bpp _ j hb0 hj]

/-- C3 witness: a double horizontal-and-vertical flip of the scenario surface
restores the byte at row 0, offset 0. -/
theorem C3_flip_involution_witness :
    (scenarioSurf.w * scenarioSurf.bpp ≤ 16) ∧
    flipFlat { w := 4, h := 2, bpp := 4, pitch := 16, base := 32 } 64 16
        (nonzeroWord RValue.vtrue) (nonzeroWord RValue.vtrue)
        (flipFlat scenarioSurf 32 16 (nonzeroWord RValue.vtrue)
          (nonzeroWord RValue.vtrue) scenarioMem) (64 + 0 * 16 + 0)
      = scenarioMem (scenarioSurf.base + 0 * scenarioSurf.pitch + 0) := by
  refine ⟨by decide, ?_⟩
  exact C3_flip_involution scenarioSurf scenarioMem 32 16 64 16
    RValue.vtrue RValue.vtrue
    { w := 4, h := 2, bpp := 4, pitch := 16, base := 32 }
    (flipFlat scenarioSurf 32 16 (nonzeroWord RValue.vtrue)
      (nonzeroWord RValue.vtrue) scenarioMem)
    { w := 4, h := 2, bpp := 4, pitch := 16, base := 64 }
    (flipFlat { w := 4, h := 2, bpp := 4, pitch := 16, base := 32 } 64 16
      (nonzeroWord RValue.vtrue) (nonzeroWord RValue.vtrue)
      (flipFlat scenarioSurf 32 16 (nonzeroWord RValue.vtrue)
        (nonzeroWord RValue.vtrue) scenarioMem))
    (by decide) (by decide) (by decide) (by decide)
    (Or.inl (by decide)) (Or.inl (by decide)) rfl rfl 0 0 (by decide) (by decide)

theorem fixnum_word_nonzero (n : Int) : rvalueWord (RValue.vint n) ≠ 0 := by
  simp only [rvalueWord]
  have hpow : (2 : Int) ^ 64 = 18446744073709551616 := by norm_num
  rw [hpow]
  omega

/-- C7: the flip kernel writes only through the destination pointer, so after
a successful flip every byte of the source pixel buffer is unchanged; the
zoom and rotozoom dispatchers never touch pixel memory at all (the resampling
is done by the external backend on a freshly returned surface). -/
theorem C7_no_source_mutation :
    ∀ (S : Surface) (m : Nat → Nat) (db dp : Nat) (args : List RValue)
      (T : Surface) (mres : Nat → Nat),
      S.w * S.bpp ≤ dp →
      (S.base + S.h * S.pitch ≤ db ∨ db + S.h * dp ≤ S.base) →
      rbgm_transform_flip S m db dp args = .ok (T, mres) →
      ∀ i, S.base ≤ i → i < S.base + S.h * S.pitch → mres i = m i := by
  intro S m db dp args T mres hdp hsep hok i hi1 hi2
  by_cases hlen : args.length < 2
  · simp [rbgm_transform_flip, hlen] at hok
  · by_cases hg : S.bpp = 0 ∨ 4 < S.bpp
    · simp [rbgm_transform_flip, newsurf_fromsurf, hlen, hg] at hok
    · simp [rbgm_transform_flip, newsurf_fromsurf, hlen, hg] at hok
      obtain ⟨hT, hm⟩ := hok
      subst hm
      apply flipFlat_frame
      intro y k hy hk
      have h2b : y * dp + k < S.h * dp := row_bound y k (S.w * S.bpp) dp S.h hy hk hdp
      rcases hsep with h | h <;> omega

/-- C7 witness: a flip of the scenario surface leaves its byte 0 unchanged. -/
theorem C7_no_source_mutation_witness :
    (scenarioSurf.w * scenarioSurf.bpp ≤ 16) ∧
    flipFlat scenarioSurf 32 16 (nonzeroWord RValue.vtrue) (nonzeroWord RValue.vtrue)
        scenarioMem 0
      = scenarioMem 0 := by
  refine ⟨by decide, ?_⟩
  exact C7_no_source_mutation scenarioSurf scenarioMem 32 16 [RValue.vtrue, RValue.vtrue]
    { w := 4, h := 2, bpp := 4, pitch := 16, base := 32 }
    (flipFlat scenarioSurf 32 16 (nonzeroWord RValue.vtrue) (nonzeroWord RValue.vtrue)
      scenarioMem)
    (by decide) (Or.inl (by decide)) rfl 0 (by decide) (by decide)

/-- C5 counterexample: a rotozoom call on a surface of depth 8 bytes per pixel
does not fail with the unsupported-depth error; the dispatcher performs no
depth check and, with a backend that accepts the request, the call returns a
surface. -/
theorem C5_depth_rejection_counterexample :
    surf8.bpp = 8 ∧
    rbgm_transform_rotozoom acceptBackend surf8
        [RValue.vint 0, RValue.vint 1, RValue.vfalse] = .ok surf8 :=
  ⟨rfl, rfl⟩

/-- C5 (amended): flip, through its allocator newsurf_fromsurf, rejects every
source whose depth is outside 1..4 bytes per pixel with the unsupported-depth
error before any destination is produced; zoom and rotozoom pass the surface
to the backend without a depth check. -/
theorem C5_flip_depth_rejection :
    ∀ (S : Surface) (m : Nat → Nat) (db dp : Nat) (a0 a1 : RValue),
      (S.bpp = 0 ∨ 4 < S.bpp) →
      rbgm_transform_flip S m db dp [a0, a1] = .error TErr.unsupportedDepth := by
  intro S m db dp a0 a1 hg
  simp [rbgm_transform_flip, newsurf_fromsurf, hg]

/-- C5 witness: flipping the depth-8 surface fails with unsupported depth. -/
theorem C5_flip_depth_rejection_witness :
    (surf8.bpp = 0 ∨ 4 < surf8.bpp) ∧
    rbgm_transform_flip surf8 scenarioMem 200 32 [RValue.vtrue, RValue.vfalse]
      = .error TErr.unsupportedDepth :=
  ⟨Or.inr (by decide),
    C5_flip_depth_rejection surf8 scenarioMem 200 32 RValue.vtrue RValue.vfalse
      (Or.inr (by decide))⟩

/-- C10: flip reads each axis flag as the raw VALUE word and tests it against
zero, which is exactly the word of the literal false: false disables the
axis, while any other value, including nil and the Fixnum 0, enables it; on a
2 x 1 one-byte-per-pixel surface, nil or 0 as the horizontal flag reverses
the row and false leaves it in order. -/
theorem C10_flip_axis_truthiness :
    (∀ v : RValue, nonzeroWord v = false ↔ v = RValue.vfalse) ∧
    nonzeroWord RValue.vnil = true ∧
    nonzeroWord (RValue.vint 0) = true ∧
    flipReadout { w := 2, h := 1, bpp := 1, pitch := 2, base := 0 }
      (fun i => [9, 7].getD i 0) 10 2 [RValue.vnil, RValue.vfalse] = [7, 9] ∧
    flipReadout { w := 2, h := 1, bpp := 1, pitch := 2, base := 0 }
      (fun i => [9, 7].getD i 0) 10 2 [RValue.vint 0, RValue.vfalse] = [7, 9] ∧
    flipReadout { w := 2, h := 1, bpp := 1, pitch := 2, base := 0 }
      (fun i => [9, 7].getD i 0) 10 2 [RValue.vfalse, RValue.vfalse] = [9, 7] := by
  refine ⟨?_, rfl, by decide, by decide, by decide, by decide⟩
  intro v
  constructor
  · intro h
    cases v with
    | vfalse => rfl
    | vtrue => simp [nonzeroWord, rvalueWord] at h
    | vnil => simp [nonzeroWord, rvalueWord] at h
    | vint n =>
      exfalso
      have hnz := fixnum_word_nonzero n
      simp [nonzeroWord] at h
      exact hnz h
    | vfloat q => simp [nonzeroWord, rvalueWord] at h
    | varray xs => simp [nonzeroWord, rvalueWord] at h
    | vstring => simp [nonzeroWord, rvalueWord] at h
  · intro h
    subst h
    rfl

/-- C10 witness: the truth-table equivalence applied at the concrete value
nil. -/
theorem C10_flip_axis_truthiness_witness :
    (nonzeroWord RValue.vnil = false ↔ RValue.vnil = RValue.vfalse) :=
  C10_flip_axis_truthiness.1 RValue.vnil

/-- C4: rotozoom_size reads both the hypothetical width and height from
element 0 of the size pair and the scalar zoom from the angle argument, so it
disagrees with the dimensions rotozoom produces: on size (4,7), angle 0,
zoom 1, with a backend whose size function returns its input dimensions and
whose rotozoom returns the source, the predictor returns (4,4) while rotozoom
returns the 4 x 7 source surface. -/
theorem C4_size_predictor_disagreement :
    rbgm_transform_rzsize acceptBackend
        [RValue.varray [RValue.vint 4, RValue.vint 7], RValue.vint 0, RValue.vint 1]
      = .ok (some (4, 4)) ∧
    rbgm_transform_rotozoom acceptBackend surf47
        [RValue.vint 0, RValue.vint 1, RValue.vfalse] = .ok surf47 ∧
    surf47.w = 4 ∧ surf47.h = 7 ∧ ((4 : Int), (4 : Int)) ≠ ((4 : Int), (7 : Int)) :=
  ⟨rfl, rfl, rfl, rfl, by decide⟩

/-- C6: with a backend lacking the XY capability, a pair zoom makes rotozoom
fail with the capability error carrying the version triple while
rotozoom_size returns the nil sentinel; but for a negative scalar zoom only
rotozoom fails: rotozoom_size reads the scalar from the angle argument (0),
misses the negativity, and returns a size instead of nil. -/
theorem C6_capability_gating :
    rbgm_transform_rotozoom noXYBackend surfS
        [RValue.vint 0, RValue.varray [RValue.vint 2, RValue.vint 3], RValue.vfalse]
      = .error (TErr.capabilityMissing (2, 0, 11)) ∧
    rbgm_transform_rzsize noXYBackend
        [RValue.varray [RValue.vint 4, RValue.vint 4], RValue.vint 0,
          RValue.varray [RValue.vint 2, RValue.vint 3]] = .ok none ∧
    rbgm_transform_rotozoom noXYBackend surfS
        [RValue.vint 0, RValue.vint (-2), RValue.vfalse]
      = .error (TErr.capabilityMissing (2, 0, 11)) ∧
    rbgm_transform_rzsize noXYBackend
        [RValue.varray [RValue.vint 4, RValue.vint 4], RValue.vint 0, RValue.vint (-2)]
      = .ok (some (4, 4)) :=
  ⟨rfl, rfl, rfl, rfl⟩

/-- C8: the arity checks of zoom and rotozoom reject calls that omit the
smooth argument, although their documentation declares it optional: zoom with
one argument and rotozoom with two raise the wrong-number-of-arguments
error. -/
theorem C8_smooth_not_optional :
    rbgm_transform_zoom acceptBackend surfS [RValue.vint 2]
      = .error (TErr.wrongNumArgs 1 1) ∧
    rbgm_transform_rotozoom acceptBackend surfS [RValue.vint 0, RValue.vint 2]
      = .error (TErr.wrongNumArgs 2 3) :=
  ⟨rfl, rfl⟩

/-- C9: rotozoom rejects a non-pair non-numeric zoom with the wrong-type
error, but rotozoom_size type-checks the angle argument instead of the zoom
argument, so with a numeric angle and a string zoom it proceeds and returns a
size instead of raising. -/
theorem C9_zoom_type_check :
    rbgm_transform_rotozoom acceptBackend surfS
        [RValue.vint 0, RValue.vstring, RValue.vfalse] = .error TErr.wrongZoomType ∧
    rbgm_transform_rzsize acceptBackend
        [RValue.varray [RValue.vint 4, RValue.vint 4], RValue.vint 0, RValue.vstring]
      = .ok (some (4, 4)) :=
  ⟨rfl, rfl⟩
